import Mathlib

/-!
Verification of the news-digest curation pipeline (rss_scraper.py and
summary_generator.py) against its natural-language specification.

The Python sources are shallowly embedded: dictionaries holding news items
become structures with `Option`-valued fields (a `none` models a missing key
or a non-string value where the source checks for one), Python floats are
modeled as exact rationals (the only multiplications performed, by the
default percentage 0.25, are exact in binary floating point), exceptions
become `Except`, and calls to the external language-model oracle become
explicit function parameters giving the oracle's response.
-/

set_option maxRecDepth 200000
set_option maxHeartbeats 2000000

namespace NewsDigest

/-! ## Python primitives -/

/-- Python's `round` on a real value: round half to even (banker's rounding). -/
def pyRound (q : ℚ) : ℤ :=
  let f : ℤ := ⌊q⌋
  let r : ℚ := q - f
  if r < 1/2 then f
  else if 1/2 < r then f + 1
  else if f % 2 = 0 then f else f + 1

/-- Python's `l[:k]` slice for an `int` bound `k` (which may be negative). -/
def pySliceTo (l : List α) (k : ℤ) : List α :=
  if 0 ≤ k then l.take k.toNat else l.take ((l.length : ℤ) + k).toNat

/-- Whitespace characters stripped by Python's `str.strip()` (ASCII range). -/
def isPySpace (c : Char) : Bool :=
  c = ' ' || c = '\t' || c = '\n' || c = '\r' || c = '\x0b' || c = '\x0c'

/-- Python's `str.strip()`, on the character list of a string. -/
def pyStrip (cs : List Char) : List Char :=
  ((cs.dropWhile isPySpace).reverse.dropWhile isPySpace).reverse

/-- Python's `str.split(sep)` for a one-character separator `sep`. -/
def splitChar (sep : Char) : List Char → List (List Char)
  | [] => [[]]
  | c :: rest =>
    let r := splitChar sep rest
    if c = sep then [] :: r
    else
      match r with
      | h :: t => (c :: h) :: t
      | [] => [[c]]

/-- Python's `<` on strings: lexicographic comparison of code points. -/
def pyStrLt : List Char → List Char → Bool
  | [], [] => false
  | [], _ :: _ => true
  | _ :: _, [] => false
  | c :: cs, d :: ds => if c < d then true else if d < c then false else pyStrLt cs ds

/-- Value of a nonempty list of ASCII digits, `none` on any other input. -/
def digitsVal : List Char → Option ℕ
  | [] => none
  | [c] => if c.isDigit then some (c.toNat - '0'.toNat) else none
  | c :: rest =>
    if c.isDigit then
      (digitsVal rest).map (fun v => (c.toNat - '0'.toNat) * 10 ^ rest.length + v)
    else none

/-- Python's `int(s)` on an already-stripped string: an optional sign followed
by ASCII digits.  (Numerals with underscores or non-ASCII digits, which CPython
also accepts, are outside the model; no oracle response in scope uses them.) -/
def pyParseInt : List Char → Option ℤ
  | '+' :: rest => (digitsVal rest).map (fun v => (v : ℤ))
  | '-' :: rest => (digitsVal rest).map (fun v => -(v : ℤ))
  | cs => (digitsVal cs).map (fun v => (v : ℤ))

/-! ## Python's `sorted(l, key=k, reverse=True)`

`sorted` is a stable sort; with `reverse=True` items with strictly greater keys
come first and items with equal keys keep their original relative order.  It is
modeled as an insertion sort parameterized by a boolean strict comparison
`gt a b` meaning "`a`'s key is strictly greater than `b`'s key". -/

/-- Insert `x` into `l` before the first element that does not strictly
precede it. -/
def insertRev (gt : α → α → Bool) (x : α) : List α → List α
  | [] => [x]
  | y :: ys => if gt y x then y :: insertRev gt x ys else x :: y :: ys

/-- Stable descending sort: Python's `sorted(l, key=…, reverse=True)`. -/
def pySortRev (gt : α → α → Bool) (l : List α) : List α :=
  l.foldr (insertRev gt) []

theorem insertRev_length (gt : α → α → Bool) (x : α) (l : List α) :
    (insertRev gt x l).length = l.length + 1 := by
  induction l with
  | nil => rfl
  | cons y ys ih =>
    simp only [insertRev]
    by_cases h : gt y x
    · simp [h, ih]
    · simp [h]

theorem pySortRev_length (gt : α → α → Bool) (l : List α) :
    (pySortRev gt l).length = l.length := by
  induction l with
  | nil => rfl
  | cons x xs ih =>
    show (insertRev gt x (pySortRev gt xs)).length = _
    rw [insertRev_length, ih, List.length_cons]

theorem mem_insertRev (gt : α → α → Bool) (x z : α) (l : List α) :
    z ∈ insertRev gt x l ↔ z = x ∨ z ∈ l := by
  induction l with
  | nil => simp [insertRev]
  | cons y ys ih =>
    simp only [insertRev]
    by_cases h : gt y x
    · simp only [h, if_true, List.mem_cons, ih]
      tauto
    · rw [if_neg h]
      simp [List.mem_cons]

/-- The list produced by `insertRev` is pairwise non-ascending, given that `gt`
is asymmetric and its negation is transitive. -/
theorem insertRev_pairwise (gt : α → α → Bool)
    (hasymm : ∀ a b, gt a b = true → gt b a = false)
    (hnegtrans : ∀ a b c, gt b a = false → gt c b = false → gt c a = false)
    (x : α) (l : List α) (hl : l.Pairwise (fun a b => gt b a = false)) :
    (insertRev gt x l).Pairwise (fun a b => gt b a = false) := by
  induction l with
  | nil => simp [insertRev]
  | cons y ys ih =>
    rw [List.pairwise_cons] at hl
    obtain ⟨hy, hys⟩ := hl
    simp only [insertRev]
    by_cases h : gt y x
    · simp only [h, if_true]
      refine List.Pairwise.cons ?_ (ih hys)
      intro z hz
      rcases (mem_insertRev gt x z ys).mp hz with rfl | hmem
      · exact hasymm _ _ h
      · exact hy z hmem
    · simp only [h, if_false]
      refine List.Pairwise.cons ?_ (List.Pairwise.cons hy hys)
      intro z hz
      rcases List.mem_cons.mp hz with rfl | hz
      · simpa using h
      · exact hnegtrans x y z (by simpa using h) (hy z hz)

theorem pySortRev_pairwise (gt : α → α → Bool)
    (hasymm : ∀ a b, gt a b = true → gt b a = false)
    (hnegtrans : ∀ a b c, gt b a = false → gt c b = false → gt c a = false)
    (l : List α) :
    (pySortRev gt l).Pairwise (fun a b => gt b a = false) := by
  induction l with
  | nil => exact List.Pairwise.nil
  | cons x xs ih => exact insertRev_pairwise gt hasymm hnegtrans x _ ih

/-- A list that is already pairwise non-ascending is a fixed point of the
stable descending sort. -/
theorem pySortRev_eq_self (gt : α → α → Bool) (l : List α)
    (hl : l.Pairwise (fun a b => gt b a = false)) :
    pySortRev gt l = l := by
  induction l with
  | nil => rfl
  | cons x xs ih =>
    rw [List.pairwise_cons] at hl
    obtain ⟨hx, hxs⟩ := hl
    have htail : pySortRev gt xs = xs := ih hxs
    show insertRev gt x (pySortRev gt xs) = x :: xs
    rw [htail]
    cases xs with
    | nil => rfl
    | cons y ys =>
      simp [insertRev, hx y (List.mem_cons_self _ _)]

/-- Stability of the descending sort, expressed through filtering: for any
predicate `p` that no two `p`-elements are ordered across (equal keys), the
`p`-elements of the sorted list appear exactly as in the input. -/
theorem pySortRev_filter (gt : α → α → Bool) (p : α → Bool)
    (hpp : ∀ a b, p a = true → p b = true → gt a b = false) (l : List α) :
    (pySortRev gt l).filter p = l.filter p := by
  have hins : ∀ (x : α) (m : List α),
      (insertRev gt x m).filter p =
        if p x then x :: m.filter p else m.filter p := by
    intro x m
    induction m with
    | nil =>
      by_cases hpx : p x <;> simp [insertRev, List.filter_cons, hpx]
    | cons y ys ihm =>
      simp only [insertRev]
      by_cases hyx : gt y x
      · by_cases hpx : p x
        · have hpy : p y = false := by
            by_contra hpy
            have h1 := hpp y x (by simpa using hpy) hpx
            simp_all
          simp [hyx, List.filter_cons, hpy, ihm, hpx]
        · simp [hyx, List.filter_cons, ihm, hpx]
      · by_cases hpx : p x <;> simp [hyx, List.filter_cons, hpx]
  induction l with
  | nil => rfl
  | cons x xs ih =>
    show (insertRev gt x (pySortRev gt xs)).filter p = _
    rw [hins, ih, List.filter_cons]

/-! ## `difflib.SequenceMatcher.ratio`

Model of the Python standard library's matcher as used by
`similar_titles` in `summary_generator.py`.  Junk handling is inactive for the
titles compared there (autojunk only applies to sequences of 200 or more
elements), so the matcher reduces to: repeatedly take the leftmost longest
common substring and recurse on both sides; `ratio = 2*M/T` where `M` is the
total matched length and `T` the total length (`1` when both are empty). -/

/-- Length of the longest common prefix of two character lists. -/
def commonRun : List Char → List Char → ℕ
  | x :: xs, y :: ys => if x = y then commonRun xs ys + 1 else 0
  | _, _ => 0

/-- The leftmost longest matching block `(i, j, size)`: the maximal common
run length, at the lexicographically smallest starting pair, matching
`SequenceMatcher.find_longest_match`'s tie-break. -/
def bestMatch (a b : List Char) : ℕ × ℕ × ℕ :=
  (List.range a.length).foldl
    (fun acc i =>
      (List.range b.length).foldl
        (fun acc2 j =>
          let k := commonRun (a.drop i) (b.drop j)
          if acc2.2.2 < k then (i, j, k) else acc2)
        acc)
    (0, 0, 0)

/-- Total size of all matching blocks (`get_matching_blocks` recursion),
with fuel; fuel `a.length + 1` always suffices since each recursive call
strictly shortens the first list. -/
def matchTotalF : ℕ → List Char → List Char → ℕ
  | 0, _, _ => 0
  | fuel + 1, a, b =>
    let m := bestMatch a b
    if m.2.2 = 0 then 0
    else
      m.2.2 + matchTotalF fuel (a.take m.1) (b.take m.2.1) +
        matchTotalF fuel (a.drop (m.1 + m.2.2)) (b.drop (m.2.1 + m.2.2))

def matchTotal (a b : List Char) : ℕ := matchTotalF (a.length + 1) a b

/-- Model of `SequenceMatcher(None, a, b).ratio()` as an exact rational. -/
def ratioQ (a b : List Char) : ℚ :=
  if a.length + b.length = 0 then 1
  else 2 * (matchTotal a b : ℚ) / ((a.length : ℚ) + (b.length : ℚ))

/-- Python's `str.lower()` (modeled for the ASCII range, which covers every
comparison the claims exercise). -/
def pyLower (s : String) : List Char := s.data.map Char.toLower

/-- Model of `similar_titles(title1, title2)` from `summary_generator.py` at the default
threshold 0.8: case-insensitive `SequenceMatcher` ratio strictly above 0.8.
Phrased over integers (`2M/T > 8/10  ⟺  2T < 5M`, and `ratio = 1 > 0.8` when
both strings are empty) so that it evaluates by kernel reduction; the lemma
`similar_titles_iff_threshold` below identifies it with the rational inequality. -/
def similar_titles (title1 title2 : String) : Bool :=
  let a := pyLower title1
  let b := pyLower title2
  if a.length + b.length = 0 then true
  else decide (2 * (a.length + b.length) < 5 * matchTotal a b)

/-- Here `similar_titles` is exactly the strict 0.8 threshold on the
`SequenceMatcher` ratio of the lowercased titles. -/
theorem similar_titles_iff_threshold (title1 title2 : String) :
    similar_titles title1 title2 = true ↔
      (8 : ℚ) / 10 < ratioQ (pyLower title1) (pyLower title2) := by
  unfold similar_titles ratioQ
  set a := pyLower title1
  set b := pyLower title2
  by_cases h : a.length + b.length = 0
  · simp only [h, if_true, if_pos]
    norm_num
  · simp only [h, if_false, decide_eq_true_eq]
    have hT : (0 : ℚ) < (a.length : ℚ) + (b.length : ℚ) := by
      exact_mod_cast Nat.pos_of_ne_zero h
    rw [div_lt_div_iff₀ (by norm_num) hT]
    constructor
    · intro hlt
      have h2 : ((2 * (a.length + b.length) : ℕ) : ℚ) < ((5 * matchTotal a b : ℕ) : ℚ) := by
        exact_mod_cast hlt
      push_cast at h2
      linarith
    · intro hlt
      have h2 : ((2 * (a.length + b.length) : ℕ) : ℚ) < ((5 * matchTotal a b : ℕ) : ℚ) := by
        push_cast
        linarith
      exact_mod_cast h2

/-! ## News items (summary-generation side)

A news item as read from a weekly JSON batch: a Python dict.  `Option`-valued
fields model keys that may be absent (or, for `ai_summary`, hold a non-string
value, which every use site guards for in the same way as absence). -/

structure NewsItem where
  title : String
  description : String
  category : Option String
  pub_date : Option String
  ai_summary : Option String
  simple_id : Option String
deriving DecidableEq, Repr

/-- The deduplication sort key: `len(x.get('ai_summary',''))` when that value
is a string, else `0`. -/
def richness (it : NewsItem) : ℕ := (it.ai_summary.map String.length).getD 0

/-- Descending comparison on `richness` for the stable sort. -/
def richGt (a b : NewsItem) : Bool := decide (richness b < richness a)

/-- One greedy pass of `deduplicate_news_items` (semantic similarity disabled):
keep the head, discard every later item whose title is similar to it, recurse.
Fuel-based so that the definition computes by kernel reduction; fuel
`l.length` suffices. -/
def dedupPassF : ℕ → List NewsItem → List NewsItem
  | 0, _ => []
  | _ + 1, [] => []
  | fuel + 1, x :: xs =>
    x :: dedupPassF fuel (xs.filter (fun y => !(similar_titles x.title y.title)))

def dedupPass (l : List NewsItem) : List NewsItem := dedupPassF l.length l

/-- Model of `deduplicate_news_items(news_items)` from `summary_generator.py` with
`use_semantic=False` (the default, and the only mode the claims address):
sort by richness descending (stable), then the greedy title-similarity pass. -/
def deduplicate_news_items (news_items : List NewsItem) : List NewsItem :=
  dedupPass (pySortRev richGt news_items)

theorem dedupPassF_fuel :
    ∀ (f g : ℕ) (l : List NewsItem), l.length ≤ f → l.length ≤ g →
      dedupPassF f l = dedupPassF g l := by
  intro f
  induction f with
  | zero =>
    intro g l hf _
    have : l = [] := List.length_eq_zero.mp (Nat.le_zero.mp hf)
    subst this
    cases g <;> rfl
  | succ f ih =>
    intro g l hf hg
    cases l with
    | nil => cases g <;> rfl
    | cons x xs =>
      cases g with
      | zero => exact absurd hg (by simp)
      | succ g =>
        show x :: dedupPassF f _ = x :: dedupPassF g _
        have hlen := List.length_filter_le
          (fun y => !(similar_titles x.title y.title)) xs
        rw [ih g _ (le_trans hlen (Nat.lt_succ_iff.mp (Nat.lt_of_lt_of_le (by simp) hf)))
          (le_trans hlen (Nat.lt_succ_iff.mp (Nat.lt_of_lt_of_le (by simp) hg)))]

theorem dedupPass_nil : dedupPass [] = [] := rfl

theorem dedupPass_cons (x : NewsItem) (xs : List NewsItem) :
    dedupPass (x :: xs) =
      x :: dedupPass (xs.filter (fun y => !(similar_titles x.title y.title))) := by
  show x :: dedupPassF xs.length _ = x :: dedupPassF _ _
  rw [dedupPassF_fuel xs.length _ _ (List.length_filter_le _ xs) (le_refl _)]

theorem dedupPassF_sublist :
    ∀ (f : ℕ) (l : List NewsItem), (dedupPassF f l).Sublist l := by
  intro f
  induction f with
  | zero => intro l; exact List.nil_sublist l
  | succ f ih =>
    intro l
    cases l with
    | nil => exact List.Sublist.refl _
    | cons x xs =>
      exact List.Sublist.cons₂ x
        ((ih _).trans (List.filter_sublist xs))

theorem dedupPass_sublist (l : List NewsItem) : (dedupPass l).Sublist l :=
  dedupPassF_sublist l.length l

theorem dedupPass_pairwise (l : List NewsItem) :
    (dedupPass l).Pairwise (fun a b => similar_titles a.title b.title = false) := by
  suffices h : ∀ (n : ℕ) (l : List NewsItem), l.length ≤ n →
      (dedupPass l).Pairwise (fun a b => similar_titles a.title b.title = false) by
    exact h l.length l (le_refl _)
  intro n
  induction n with
  | zero =>
    intro l hl
    have : l = [] := List.length_eq_zero.mp (Nat.le_zero.mp hl)
    subst this
    exact List.Pairwise.nil
  | succ n ih =>
    intro l hl
    cases l with
    | nil => exact List.Pairwise.nil
    | cons x xs =>
      rw [dedupPass_cons]
      refine List.Pairwise.cons ?_ (ih _ (le_trans (List.length_filter_le _ xs)
        (Nat.succ_le_succ_iff.mp hl)))
      intro z hz
      have hz' : z ∈ xs.filter (fun y => !(similar_titles x.title y.title)) :=
        (dedupPass_sublist _).subset hz
      have := (List.mem_filter.mp hz').2
      simpa using this

theorem dedupPass_idem_aux :
    ∀ (n : ℕ) (l : List NewsItem), l.length ≤ n →
      dedupPass (dedupPass l) = dedupPass l := by
  intro n
  induction n with
  | zero =>
    intro l hl
    have : l = [] := List.length_eq_zero.mp (Nat.le_zero.mp hl)
    subst this
    rfl
  | succ n ih =>
    intro l hl
    cases l with
    | nil => rfl
    | cons x xs =>
      rw [dedupPass_cons]
      rw [dedupPass_cons]
      have hfix :
          (dedupPass (xs.filter (fun y => !(similar_titles x.title y.title)))).filter
              (fun y => !(similar_titles x.title y.title)) =
            dedupPass (xs.filter (fun y => !(similar_titles x.title y.title))) := by
        apply List.filter_eq_self.mpr
        intro a ha
        exact (List.mem_filter.mp ((dedupPass_sublist _).subset ha)).2
      rw [hfix, ih _ (le_trans (List.length_filter_le _ xs) (Nat.succ_le_succ_iff.mp hl))]

theorem dedupPass_idem (l : List NewsItem) :
    dedupPass (dedupPass l) = dedupPass l :=
  dedupPass_idem_aux l.length l (le_refl _)

theorem richGt_asymm (a b : NewsItem) : richGt a b = true → richGt b a = false := by
  simp only [richGt, decide_eq_true_eq, decide_eq_false_iff_not]
  omega

theorem richGt_negtrans (a b c : NewsItem) :
    richGt b a = false → richGt c b = false → richGt c a = false := by
  simp only [richGt, decide_eq_false_iff_not]
  omega

/-! ## Importance ranker (`evaluate_story_importance`) -/

/-- Model of `str(idx + 1)` annotation: each item's `simple_id` is set, in place, to the
decimal string of its 1-based position. -/
def annotateFrom (n : ℕ) : List NewsItem → List NewsItem
  | [] => []
  | it :: rest => { it with simple_id := some (toString n) } :: annotateFrom (n + 1) rest

def annotateSimpleIds (items : List NewsItem) : List NewsItem := annotateFrom 1 items

/-- Python's `round(a / b)` for integers `a`, `b` with `b > 0`: floor division
with the exact-half case rounded to even.  Used for `round(len(items) *
percentage)` with the float `percentage` modeled as the exact rational
`percentage.num / percentage.den` (the default 0.25 is exact in binary
floating point, so the models agree on every call the pipeline makes). -/
def pyRoundFrac (a b : ℤ) : ℤ :=
  let f := a.fdiv b
  let r2 := 2 * (a - f * b)
  if r2 < b then f
  else if b < r2 then f + 1
  else if f % 2 = 0 then f else f + 1

/-- Model of `target_stories = max(min_stories, min(max_stories, round(len * percentage)))`. -/
def targetStories (n : ℕ) (percentage : ℚ) (min_stories max_stories : ℤ) : ℤ :=
  max min_stories
    (min max_stories (pyRoundFrac ((n : ℤ) * percentage.num) (percentage.den : ℤ)))

/-- One line of the oracle response: only lines containing exactly one `:`,
whose right part parses as an `int` in `1..10`, contribute a score; the key is
the stripped left part.  (Lines failing any step are skipped by the inner
`except (ValueError, IndexError): continue`.) -/
def parseScoreLine (line : List Char) : Option (String × ℤ) :=
  match splitChar ':' line with
  | [i, s] =>
    match pyParseInt (pyStrip s) with
    | some v => if 1 ≤ v ∧ v ≤ 10 then some (⟨pyStrip i⟩, v) else none
    | none => none
  | _ => none

/-- The `importance_scores` dict: every valid `ordinal:score` line of
`response.content.strip().split('\n')`, in order (later lines overwrite
earlier ones for the same key, reflected by `dictGet`). -/
def parseScores (content : String) : List (String × ℤ) :=
  (splitChar '\n' (pyStrip content.data)).filterMap parseScoreLine

/-- Model of `dict.get(k, d)` for a dict built by in-order insertion: the value of the
last binding of `k`, or `d` if there is none. -/
def dictGet : List (String × ℤ) → String → ℤ → ℤ
  | [], _, d => d
  | (k', v) :: rest, k, d => dictGet rest k (if k' = k then v else d)

/-- Descending comparison on the score path's sort key
`(importance_scores.get(simple_id, 0), pub_date or '1970-01-01')`,
compared as Python compares tuples (lexicographically). -/
def scoreGt (scores : List (String × ℤ)) (x y : NewsItem) : Bool :=
  let sx := dictGet scores (x.simple_id.getD "") 0
  let sy := dictGet scores (y.simple_id.getD "") 0
  decide (sy < sx) ||
    (decide (sy = sx) &&
      pyStrLt (y.pub_date.getD "1970-01-01").data (x.pub_date.getD "1970-01-01").data)

/-- Descending comparison on `x['pub_date']` for the fallback sort (only
applied when every item has the key, otherwise the lookup raises). -/
def pubDateGt (x y : NewsItem) : Bool :=
  pyStrLt (y.pub_date.getD "").data (x.pub_date.getD "").data

/-- Python exceptions that can escape `evaluate_story_importance`. -/
inductive PyError where
  | unboundLocal
  | keyError
deriving DecidableEq, Repr

/-- Model of `evaluate_story_importance(news_items, category, percentage, min_stories,
max_stories)` from `summary_generator.py`.  The oracle call `model.invoke` is
the parameter `oracle`: `Except.error ()` when the call raises, `.ok content`
when it returns a response with that content.  The value is a pair:

* first component — the final state of the caller's `news_items` list, whose
  dicts the function mutates in place (`simple_id` annotation) before anything
  else;
* second component — the call's outcome.  When the oracle call raised, the
  `except` handler's second log line formats `response.content` into its
  message, reading the never-assigned local `response`, so an
  `UnboundLocalError` escapes; when
  the handler's fallback `sorted(news_items, key=lambda x: x['pub_date'], …)`
  meets an item without the key, a `KeyError` escapes. -/
def evaluate_story_importance (news_items : List NewsItem) (_category : String)
    (oracle : Except Unit String) (percentage : ℚ) (min_stories max_stories : ℤ) :
    List NewsItem × Except PyError (List NewsItem) :=
  let annotated := annotateSimpleIds news_items
  let target := targetStories news_items.length percentage min_stories max_stories
  let result : Except PyError (List NewsItem) :=
    if (news_items.length : ℤ) ≤ target then .ok annotated
    else
      match oracle with
      | .error _ => .error .unboundLocal
      | .ok content =>
        let scores := parseScores content
        if scores.isEmpty then
          if annotated.all (fun x => x.pub_date.isSome) then
            .ok (pySliceTo (pySortRev pubDateGt annotated) target)
          else .error .keyError
        else .ok (pySliceTo (pySortRev (scoreGt scores) annotated) target)
  (annotated, result)

/-! ## Per-category summarization (`generate_summary`,
`generate_summaries_by_category`) -/

/-- Model of `generate_summary(news_items)`: renders the fixed prompt over the items and
invokes the generation oracle once; the response content (or the exception) is
the oracle's answer, modeled as a function of the enumerated item list.  No
retry and no local recovery: an oracle failure propagates to the caller. -/
def generate_summary (oracle : List NewsItem → Except Unit String)
    (news_items : List NewsItem) : Except Unit String :=
  oracle news_items

/-- Model of `sort_by_category`: a Python dict keyed by `item.get('category',
'Uncategorized')`, in insertion order — categories in order of first
occurrence, each holding its items in input order. -/
def categoryUpsert : List (String × List NewsItem) → String → NewsItem →
    List (String × List NewsItem)
  | [], c, it => [(c, [it])]
  | (c', l) :: rest, c, it =>
    if c' = c then (c', l ++ [it]) :: rest
    else (c', l) :: categoryUpsert rest c it

def sort_by_category (news_items : List NewsItem) : List (String × List NewsItem) :=
  news_items.foldl
    (fun acc it => categoryUpsert acc (it.category.getD "Uncategorized") it) []

/-- The call-site default `percentage=0.25`. -/
def defaultPercentage : ℚ := mkRat 1 4

/-- The per-category loop of `generate_summaries_by_category`.  The single
`try`/`except` wrapping the whole loop means the first exception — from the
ranker or from the summarization oracle — stops processing; the summaries
accumulated before it are returned. -/
def summariesLoop (rankOracle : String → List NewsItem → Except Unit String)
    (sumOracle : List NewsItem → Except Unit String) :
    List (String × List NewsItem) → List (String × String)
  | [] => []
  | (c, items) :: rest =>
    match (evaluate_story_importance items c (rankOracle c items)
        defaultPercentage 7 14).2 with
    | .error _ => []
    | .ok top =>
      match generate_summary sumOracle top with
      | .error _ => []
      | .ok s => (c, s) :: summariesLoop rankOracle sumOracle rest

/-- Model of `generate_summaries_by_category`, from the loaded batch onward:
deduplicate, group by category, then summarize category by category. -/
def generate_summaries_by_category (news_data : List NewsItem)
    (rankOracle : String → List NewsItem → Except Unit String)
    (sumOracle : List NewsItem → Except Unit String) : List (String × String) :=
  summariesLoop rankOracle sumOracle
    (sort_by_category (deduplicate_news_items news_data))

/-! ## Feed ingestion (`rss_scraper.py`) -/

/-- Skip past the closing `>` of a markup tag: the characters through the next
`>`, failing at a newline or the end of input (the regex `<.*?>` cannot match
across a newline and needs a closing `>`). -/
def dropTag : List Char → Option (List Char)
  | [] => none
  | '>' :: rest => some rest
  | '\n' :: _ => none
  | _ :: rest => dropTag rest

/-- Model of `re.sub('<.*?>', '', s)`: remove every leftmost non-greedy tag match.
Fueled (the remainder after a match is a strict suffix); fuel `cs.length`
suffices. -/
def cleanAux : ℕ → List Char → List Char
  | 0, cs => cs
  | _ + 1, [] => []
  | fuel + 1, '<' :: rest =>
    match dropTag rest with
    | some rest' => cleanAux fuel rest'
    | none => '<' :: cleanAux fuel rest
  | fuel + 1, c :: rest => c :: cleanAux fuel rest

/-- Model of `clean_html(raw_html)`: strip markup tags, then `strip()` whitespace. -/
def clean_html (raw_html : String) : String :=
  ⟨pyStrip (cleanAux raw_html.data.length raw_html.data)⟩

/-- One `<item>` element of a parsed feed document, as the scraper reads it:
for each child tag, `none` when the element is absent and `some none` when it
is present with no text (`.text` is `None`).  The mandatory `title` and
`description` are collapsed to a single `Option` since both failure shapes
raise the same `AttributeError` at the same place. -/
structure XmlItem where
  title : Option String
  description : Option String
  guid : Option (Option String)
  pubDate : Option (Option String)
  link : Option (Option String)
deriving DecidableEq, Repr

/-- A news item produced by the scraper.  `pub_date` is the parsed,
timezone-converted timestamp, modeled as an instant on the integer line. -/
structure RssNewsItem where
  id : Option String
  title : String
  description : String
  category : String
  pub_date : ℤ
  url : String
deriving DecidableEq, Repr

/-- Model of `elem.text.strip() if elem is not None else None`: absent element gives
`None`; a present element whose `.text` is `None` raises `AttributeError`. -/
def optText : Option (Option String) → Except Unit (Option String)
  | none => .ok none
  | some none => .error ()
  | some (some s) => .ok (some ⟨pyStrip s.data⟩)

/-- The `url` computation of `parse_rss_item`: the stripped `<link>` text
when the element exists (raising when its text is `None`), else a guid that is
itself a non-empty absolute URL, else no URL (item to be skipped). -/
def resolveUrl : Option (Option String) → Option String → Except Unit (Option String)
  | some none, _ => .error ()
  | some (some u), _ => .ok (some (String.mk (pyStrip u.data)))
  | none, some p =>
    if p ≠ "" ∧ "http".data.isPrefixOf p.data then .ok (some p) else .ok none
  | none, none => .ok none

/-- Model of `parse_rss_item(item, category)` from `rss_scraper.py`.  `dateParse` is the
composition `datetime.strptime(·, '%a, %d %b %Y %H:%M:%S %z')` followed by the
conversion to Europe/Vilnius, as a parameter: `none` exactly when `strptime`
raises `ValueError`.  Result: `.error ()` when the function raises
(`AttributeError` on a missing/empty mandatory text), `.ok none` when the item
is silently skipped, `.ok (some it)` when it parses. -/
def parse_rss_item (item : XmlItem) (category : String)
    (dateParse : String → Option ℤ) : Except Unit (Option RssNewsItem) :=
  match item.title with
  | none => .error ()
  | some t =>
    match item.description with
    | none => .error ()
    | some d =>
      match optText item.guid with
      | .error e => .error e
      | .ok post_id =>
        match optText item.pubDate with
        | .error e => .error e
        | .ok pub_date_str =>
          match resolveUrl item.link post_id with
          | .error e => .error e
          | .ok none => .ok none
          | .ok (some u) =>
            match pub_date_str with
            | none => .ok none
            | some pstr =>
              match dateParse pstr with
              | none => .ok none
              | some pd =>
                .ok (some
                  { id := post_id
                    title := String.mk (pyStrip t.data)
                    description := clean_html (String.mk (pyStrip d.data))
                    category := category
                    pub_date := pd
                    url := u })

/-- Model of `parse_rss_feed` over the `./channel/item` elements of a parsed document:
parse each item, keep those in the `[start_of_week, end_of_week)` window; an
exception from any single item aborts the whole feed (there is no per-item
handler). -/
def parse_rss_feed (channelItems : List XmlItem) (category : String)
    (start_of_week end_of_week : ℤ) (dateParse : String → Option ℤ) :
    Except Unit (List RssNewsItem) :=
  match channelItems with
  | [] => .ok []
  | x :: rest =>
    match parse_rss_item x category dateParse with
    | .error e => .error e
    | .ok pi =>
      match parse_rss_feed rest category start_of_week end_of_week dateParse with
      | .error e => .error e
      | .ok tail =>
        match pi with
        | some it =>
          if start_of_week ≤ it.pub_date ∧ it.pub_date < end_of_week then
            Except.ok (it :: tail)
          else Except.ok tail
        | none => Except.ok tail

/-- The `for attempt in range(retries)` loop of `scrape_rss_feed`, over the
remaining attempt indices.  `fetch a` is attempt `a`'s outcome (`.error ()` for
a `requests.RequestException`); `parse` is `parse_rss_feed` on the fetched
document (an error there, e.g. `ET.ParseError`, is not caught and propagates).
The value traces the run: the returned item list, the number of fetch attempts
made, and the list of `time.sleep` delays performed (one `delay` after each
failed attempt except the last, per `handle_request_exception`). -/
def scrapeAttempts (fetch : ℕ → Except Unit String)
    (parse : String → Except Unit (List RssNewsItem)) (retries : ℕ) (delay : ℤ) :
    List ℕ → Except Unit (List RssNewsItem × ℕ × List ℤ)
  | [] => .ok ([], 0, [])
  | a :: rest =>
    match fetch a with
    | .ok xml => (parse xml).map (fun items => (items, 1, []))
    | .error _ =>
      (scrapeAttempts fetch parse retries delay rest).map
        (fun r =>
          (r.1, r.2.1 + 1, (if (a : ℤ) < (retries : ℤ) - 1 then [delay] else []) ++ r.2.2))

/-- Model of `scrape_rss_feed(url, category, …, retries, delay)`: up to `retries`
fetch attempts with a fixed `delay` between consecutive ones; after the final
failed attempt it returns `[]` without raising. -/
def scrape_rss_feed (fetch : ℕ → Except Unit String)
    (parse : String → Except Unit (List RssNewsItem)) (retries : ℕ) (delay : ℤ) :
    Except Unit (List RssNewsItem × ℕ × List ℤ) :=
  scrapeAttempts fetch parse retries delay (List.range retries)

/-- Model of `add_new_items(news_items, existing_data, existing_ids)` from
`rss_scraper.py`: append each incoming item whose id is not yet in the id set,
updating the set; returns the updated batch, the updated id set (modeled by a
membership list) and the count of items added. -/
def add_new_items (news_items existing_data : List RssNewsItem)
    (existing_ids : List (Option String)) :
    List RssNewsItem × List (Option String) × ℕ :=
  match news_items with
  | [] => (existing_data, existing_ids, 0)
  | it :: rest =>
    if it.id ∈ existing_ids then add_new_items rest existing_data existing_ids
    else
      let r := add_new_items rest (existing_data ++ [it]) (it.id :: existing_ids)
      (r.1, r.2.1, r.2.2 + 1)

/-! ## Supporting lemmas -/

/-- An item with its transient `simple_id` annotation erased. -/
def stripSimpleId (it : NewsItem) : NewsItem := { it with simple_id := none }

theorem annotateFrom_length (n : ℕ) (l : List NewsItem) :
    (annotateFrom n l).length = l.length := by
  induction l generalizing n with
  | nil => rfl
  | cons x xs ih => simp [annotateFrom, ih]

theorem annotateFrom_simple_ids (n : ℕ) (l : List NewsItem) :
    (annotateFrom n l).map (fun it => it.simple_id) =
      (List.range l.length).map (fun i => some (toString (n + i))) := by
  induction l generalizing n with
  | nil => rfl
  | cons x xs ih =>
    simp only [annotateFrom, List.map_cons, List.length_cons,
      List.range_succ_eq_map, List.map_map]
    refine congrArg₂ _ (by simp) ?_
    rw [ih (n + 1)]
    apply List.map_congr_left
    intro i _
    simp only [Function.comp]
    refine congrArg _ (congrArg _ ?_)
    omega

theorem annotateFrom_strip (n : ℕ) (l : List NewsItem) :
    (annotateFrom n l).map stripSimpleId = l.map stripSimpleId := by
  induction l generalizing n with
  | nil => rfl
  | cons x xs ih => simp [annotateFrom, stripSimpleId, ih]

theorem annotateFrom_pub_dates (n : ℕ) (l : List NewsItem) :
    (annotateFrom n l).all (fun x => x.pub_date.isSome) =
      l.all (fun x => x.pub_date.isSome) := by
  induction l generalizing n with
  | nil => rfl
  | cons x xs ih => simp [annotateFrom, ih]

theorem pyStrLt_asymm : ∀ (a b : List Char), pyStrLt a b = true → pyStrLt b a = false := by
  intro a
  induction a with
  | nil =>
    intro b h
    cases b with
    | nil => exact absurd h (by simp [pyStrLt])
    | cons d ds => rfl
  | cons c cs ih =>
    intro b h
    cases b with
    | nil => exact absurd h (by simp [pyStrLt])
    | cons d ds =>
      simp only [pyStrLt] at h ⊢
      by_cases hcd : c < d
      · rw [if_neg (lt_asymm hcd), if_pos hcd]
      · rw [if_neg hcd] at h
        by_cases hdc : d < c
        · rw [if_pos hdc] at h
          exact absurd h (by simp)
        · rw [if_neg hdc] at h
          rw [if_neg hdc, if_neg hcd]
          exact ih ds h

theorem pyStrLt_negtrans : ∀ (a b c : List Char),
    pyStrLt a b = false → pyStrLt b c = false → pyStrLt a c = false := by
  intro a
  induction a with
  | nil =>
    intro b c h1 h2
    cases b with
    | nil =>
      cases c with
      | nil => rfl
      | cons _ _ => exact absurd h2 (by simp [pyStrLt])
    | cons _ _ => exact absurd h1 (by simp [pyStrLt])
  | cons x xs ih =>
    intro b c h1 h2
    cases c with
    | nil => rfl
    | cons z zs =>
      cases b with
      | nil => exact absurd h2 (by simp [pyStrLt])
      | cons y ys =>
        simp only [pyStrLt] at h1 h2 ⊢
        by_cases hxy : x < y
        · rw [if_pos hxy] at h1
          exact absurd h1 (by simp)
        · rw [if_neg hxy] at h1
          by_cases hyz : y < z
          · rw [if_pos hyz] at h2
            exact absurd h2 (by simp)
          · rw [if_neg hyz] at h2
            have hzy : z ≤ y := le_of_not_lt hyz
            have hyx : y ≤ x := le_of_not_lt hxy
            have hxz : ¬(x < z) := fun hlt =>
              absurd (lt_of_lt_of_le hlt (le_trans hzy hyx)) (lt_irrefl x)
            rw [if_neg hxz]
            by_cases hzx : z < x
            · rw [if_pos hzx]
            · rw [if_neg hzx]
              have hxez : x = z := le_antisymm (le_of_not_lt hzx) (le_trans hzy hyx)
              have hxey : x = y := le_antisymm (hxez ▸ hzy) hyx
              subst hxey
              subst hxez
              rw [if_neg (lt_irrefl x)] at h1 h2
              exact ih ys zs h1 h2

theorem scoreGt_asymm (s : List (String × ℤ)) (a b : NewsItem) :
    scoreGt s a b = true → scoreGt s b a = false := by
  intro h
  by_contra hc
  rw [Bool.not_eq_false] at hc
  simp only [scoreGt, Bool.or_eq_true, Bool.and_eq_true, decide_eq_true_eq] at h hc
  rcases h with h | ⟨he, hs⟩ <;> rcases hc with hc | ⟨hce, hcs⟩
  · omega
  · omega
  · omega
  · rw [pyStrLt_asymm _ _ hs] at hcs
    exact absurd hcs (by simp)

theorem scoreGt_negtrans (s : List (String × ℤ)) (a b c : NewsItem) :
    scoreGt s b a = false → scoreGt s c b = false → scoreGt s c a = false := by
  simp only [scoreGt, Bool.or_eq_false_iff, Bool.and_eq_false_iff,
    decide_eq_false_iff_not]
  intro h1 h2
  obtain ⟨h1a, h1b⟩ := h1
  obtain ⟨h2a, h2b⟩ := h2
  refine ⟨by omega, ?_⟩
  by_cases hac : dictGet s (a.simple_id.getD "") 0 = dictGet s (c.simple_id.getD "") 0
  · right
    have hab : dictGet s (a.simple_id.getD "") 0 = dictGet s (b.simple_id.getD "") 0 := by
      omega
    have hbc : dictGet s (b.simple_id.getD "") 0 = dictGet s (c.simple_id.getD "") 0 := by
      omega
    have hba : pyStrLt (a.pub_date.getD "1970-01-01").data
        (b.pub_date.getD "1970-01-01").data = false := by
      rcases h1b with h | h
      · exact absurd hab h
      · exact h
    have hcb : pyStrLt (b.pub_date.getD "1970-01-01").data
        (c.pub_date.getD "1970-01-01").data = false := by
      rcases h2b with h | h
      · exact absurd hbc h
      · exact h
    exact pyStrLt_negtrans _ _ _ hba hcb
  · exact Or.inl hac

theorem pubDateGt_asymm (a b : NewsItem) :
    pubDateGt a b = true → pubDateGt b a = false := by
  simp only [pubDateGt]
  exact pyStrLt_asymm _ _

theorem pubDateGt_negtrans (a b c : NewsItem) :
    pubDateGt b a = false → pubDateGt c b = false → pubDateGt c a = false := by
  simp only [pubDateGt]
  exact pyStrLt_negtrans _ _ _

end NewsDigest

deriving instance DecidableEq for Except

namespace NewsDigest

/-! ## Claim C10 -/

/-- C10. —  Every call to `evaluate_story_importance` mutates each item of
its input list by setting its `simple_id` field to the decimal string of the
item's 1-based position.  This happens before the target-size check: the final
state of the input list (the pair's first component) is the annotated list on
every path, including the no-op path, and the annotation changes no other
field. -/
theorem evaluate_annotates_simple_ids (news_items : List NewsItem) (category : String)
    (oracle : Except Unit String) (percentage : ℚ) (min_stories max_stories : ℤ) :
    (evaluate_story_importance news_items category oracle percentage
        min_stories max_stories).1 = annotateSimpleIds news_items
    ∧ (annotateSimpleIds news_items).map (fun it => it.simple_id) =
        (List.range news_items.length).map (fun i => some (toString (i + 1)))
    ∧ (annotateSimpleIds news_items).map stripSimpleId =
        news_items.map stripSimpleId := by
  refine ⟨rfl, ?_, annotateFrom_strip 1 news_items⟩
  rw [annotateSimpleIds, annotateFrom_simple_ids]
  apply List.map_congr_left
  intro i _
  rw [Nat.add_comm]

/-! ## Claim C2 -/

/-- A concrete item carrying no `simple_id`. -/
def noopItem : NewsItem :=
  { title := "a", description := "d", category := some "X",
    pub_date := some "2024-01-01", ai_summary := none, simple_id := none }

/-- C2 counterexample. —  A single-item call (below the threshold) does not
return the item unchanged: it comes back with `simple_id` newly set to `"1"`.
So "returns all items unchanged" fails as stated; only the version that allows
the `simple_id` annotation holds. -/
theorem C2_counterexample :
    (evaluate_story_importance [noopItem] "X" (Except.ok "") defaultPercentage 7 14).2 =
      Except.ok [{ noopItem with simple_id := some "1" }]
    ∧ (evaluate_story_importance [noopItem] "X" (Except.ok "") defaultPercentage 7 14).2 ≠
      Except.ok [noopItem] := by
  exact ⟨rfl, by decide⟩

/-- C2 (amended). —  For every list of news items with length at most the
computed target `clamp(round(len*percentage), min_stories, max_stories)`,
`evaluate_story_importance` returns all items in their original order and
makes no oracle call (the result does not depend on the oracle), each item
unchanged except that its `simple_id` field is set to its 1-based position. -/
theorem evaluate_no_op_below_threshold (news_items : List NewsItem) (category : String)
    (oracle oracle' : Except Unit String) (percentage : ℚ) (min_stories max_stories : ℤ)
    (h : (news_items.length : ℤ) ≤
        targetStories news_items.length percentage min_stories max_stories) :
    (evaluate_story_importance news_items category oracle percentage min_stories
        max_stories).2 = Except.ok (annotateSimpleIds news_items)
    ∧ evaluate_story_importance news_items category oracle percentage min_stories
        max_stories =
      evaluate_story_importance news_items category oracle' percentage min_stories
        max_stories
    ∧ (annotateSimpleIds news_items).map stripSimpleId = news_items.map stripSimpleId
    ∧ (annotateSimpleIds news_items).length = news_items.length := by
  refine ⟨?_, ?_, annotateFrom_strip 1 _, annotateFrom_length 1 _⟩
  · simp only [evaluate_story_importance, if_pos h]
  · simp only [evaluate_story_importance, if_pos h]

/-- Witness for C2: three items are below the default target 7, and the
amended claim evaluates as stated on them. -/
theorem evaluate_no_op_below_threshold_witness :
    ((3 : ℤ) ≤ targetStories 3 defaultPercentage 7 14)
    ∧ ((evaluate_story_importance [noopItem, noopItem, noopItem] "X" (Except.ok "z")
          defaultPercentage 7 14).2 =
        Except.ok (annotateSimpleIds [noopItem, noopItem, noopItem])
      ∧ evaluate_story_importance [noopItem, noopItem, noopItem] "X" (Except.ok "z")
          defaultPercentage 7 14 =
        evaluate_story_importance [noopItem, noopItem, noopItem] "X" (Except.error ())
          defaultPercentage 7 14
      ∧ (annotateSimpleIds [noopItem, noopItem, noopItem]).map stripSimpleId =
          [noopItem, noopItem, noopItem].map stripSimpleId
      ∧ (annotateSimpleIds [noopItem, noopItem, noopItem]).length =
          [noopItem, noopItem, noopItem].length) :=
  ⟨by decide,
    evaluate_no_op_below_threshold [noopItem, noopItem, noopItem] "X" (Except.ok "z")
      (Except.error ()) defaultPercentage 7 14 (by decide)⟩

/-! ## Claim C1 -/

/-- A concrete ranker input: item `i` of eight, published on day `i`. -/
def rankItem (i : ℕ) : NewsItem :=
  { title := "t" ++ toString i, description := "d", category := some "X",
    pub_date := some ("2024-01-0" ++ toString i), ai_summary := none, simple_id := none }

def items8 : List NewsItem :=
  [rankItem 1, rankItem 2, rankItem 3, rankItem 4,
   rankItem 5, rankItem 6, rankItem 7, rankItem 8]

/-- Item `rankItem i` after the in-place `simple_id` annotation. -/
def annItem (i : ℕ) : NewsItem := { rankItem i with simple_id := some (toString i) }

/-- The deterministic fallback on `items8`: publication date descending,
truncated to the target 7. -/
def fallback8 : List NewsItem :=
  [annItem 8, annItem 7, annItem 6, annItem 5, annItem 4, annItem 3, annItem 2]

/-- C1 (code bug). —  With more items than the target (8 > 7), the three
oracle failure modes are not handled alike: an empty response and an
unparseable response both yield the date-descending truncation, but an
exception from the oracle call itself escapes the function — the `except`
handler's second log line evaluates the f-string over the local `response`,
never assigned when `model.invoke` raised, so an `UnboundLocalError`
propagates instead of reaching the fallback. -/
theorem evaluate_oracle_exception_escapes :
    (evaluate_story_importance items8 "X" (Except.error ()) defaultPercentage 7 14).2 =
      Except.error PyError.unboundLocal
    ∧ (evaluate_story_importance items8 "X" (Except.ok "") defaultPercentage 7 14).2 =
      Except.ok fallback8
    ∧ (evaluate_story_importance items8 "X" (Except.ok "invalid response")
        defaultPercentage 7 14).2 = Except.ok fallback8
    ∧ (Except.error PyError.unboundLocal : Except PyError (List NewsItem)) ≠
        Except.ok fallback8 :=
  ⟨rfl, by decide, by decide, by decide⟩

/-! ## Claim C3 -/

theorem splitChar_single (sep : Char) (cs : List Char) (h : sep ∉ cs) :
    splitChar sep cs = [cs] := by
  induction cs with
  | nil => rfl
  | cons c rest ih =>
    have hc : ¬(c = sep) := fun he => h (he ▸ List.mem_cons_self _ _)
    have hrest : sep ∉ rest := fun hm => h (List.mem_cons_of_mem _ hm)
    simp only [splitChar, if_neg hc, ih hrest]

theorem mem_splitChar (sep : Char) (cs : List Char) :
    ∀ l ∈ splitChar sep cs, ∀ c ∈ l, c ∈ cs := by
  induction cs with
  | nil =>
    intro l hl c hc
    simp only [splitChar, List.mem_singleton] at hl
    subst hl
    cases hc
  | cons x rest ih =>
    intro l hl c hc
    simp only [splitChar] at hl
    by_cases hx : x = sep
    · rw [if_pos hx] at hl
      rcases List.mem_cons.mp hl with rfl | hl
      · cases hc
      · exact List.mem_cons_of_mem _ (ih l hl c hc)
    · rw [if_neg hx] at hl
      cases hr : splitChar sep rest with
      | nil =>
        rw [hr] at hl
        rcases List.mem_singleton.mp hl with rfl
        rcases List.mem_singleton.mp hc with rfl
        exact List.mem_cons_self _ _
      | cons hh ht =>
        rw [hr] at hl
        rcases List.mem_cons.mp hl with rfl | hl
        · rcases List.mem_cons.mp hc with rfl | hc
          · exact List.mem_cons_self _ _
          · have hm : hh ∈ splitChar sep rest := by
              rw [hr]
              exact List.mem_cons_self _ _
            exact List.mem_cons_of_mem _ (ih hh hm c hc)
        · have hm : l ∈ splitChar sep rest := by
            rw [hr]
            exact List.mem_cons_of_mem _ hl
          exact List.mem_cons_of_mem _ (ih l hm c hc)

theorem mem_dropWhile (p : Char → Bool) (l : List Char) (c : Char)
    (h : c ∈ l.dropWhile p) : c ∈ l := by
  induction l with
  | nil => cases h
  | cons x xs ih =>
    rw [List.dropWhile_cons] at h
    by_cases hx : p x = true
    · rw [if_pos hx] at h
      exact List.mem_cons_of_mem _ (ih h)
    · rw [if_neg hx] at h
      exact h

theorem mem_pyStrip (cs : List Char) (c : Char) (h : c ∈ pyStrip cs) : c ∈ cs := by
  unfold pyStrip at h
  rw [List.mem_reverse] at h
  have h1 := mem_dropWhile _ _ _ h
  rw [List.mem_reverse] at h1
  exact mem_dropWhile _ _ _ h1

theorem parseScoreLine_no_colon (line : List Char) (h : ':' ∉ line) :
    parseScoreLine line = none := by
  unfold parseScoreLine
  rw [splitChar_single ':' line h]

theorem parseScores_no_colon (s : String) (h : ':' ∉ s.data) :
    parseScores s = [] := by
  unfold parseScores
  apply List.filterMap_eq_nil_iff.mpr
  intro line hline
  apply parseScoreLine_no_colon
  intro hc
  exact h (mem_pyStrip _ _ (mem_splitChar '\n' _ line hline ':' hc))

/-- The intended preference-order selection for the shape (a) response
`"1,2,3,4,5,6,7"` on `items8` — which the code does not produce. -/
def preference8 : List NewsItem :=
  [annItem 1, annItem 2, annItem 3, annItem 4, annItem 5, annItem 6, annItem 7]

/-- C3 counterexample. —  The ranker does not accept response shape (a): for
the well-formed ordered comma-separated ordinal list `"1,2,3,4,5,6,7"` it does
not recover the selected winners in preference order — the response parses to
zero scores and the ranker falls back to the date-descending truncation, which
differs from the preference-order selection. -/
theorem C3_counterexample :
    (evaluate_story_importance items8 "X" (Except.ok "1,2,3,4,5,6,7")
        defaultPercentage 7 14).2 = Except.ok fallback8
    ∧ fallback8 ≠ preference8 :=
  ⟨by decide, by decide⟩

/-- C3 (amended). —  Only response shape (b) is accepted: a response with at
least one parseable `ordinal:score` line (1–10 scale) makes the ranker sort by
`(score desc, publication date desc)` and truncate to the target, while any
response without a colon — in particular a comma-separated ordinal list —
yields zero parseable scores and triggers the date-descending fallback rather
than a preference-order selection. -/
theorem evaluate_response_shapes (news_items : List NewsItem) (category : String)
    (respA respB : String) (percentage : ℚ) (min_stories max_stories : ℤ)
    (hlen : targetStories news_items.length percentage min_stories max_stories <
      (news_items.length : ℤ))
    (hb : parseScores respB ≠ [])
    (ha : ':' ∉ respA.data)
    (hpd : news_items.all (fun x => x.pub_date.isSome) = true) :
    (evaluate_story_importance news_items category (Except.ok respB) percentage
        min_stories max_stories).2 =
      Except.ok (pySliceTo
        (pySortRev (scoreGt (parseScores respB)) (annotateSimpleIds news_items))
        (targetStories news_items.length percentage min_stories max_stories))
    ∧ (evaluate_story_importance news_items category (Except.ok respA) percentage
        min_stories max_stories).2 =
      Except.ok (pySliceTo (pySortRev pubDateGt (annotateSimpleIds news_items))
        (targetStories news_items.length percentage min_stories max_stories)) := by
  have hnle : ¬((news_items.length : ℤ) ≤
      targetStories news_items.length percentage min_stories max_stories) :=
    not_le.mpr hlen
  constructor
  · have hne : (parseScores respB).isEmpty = false := by
      cases hpe : (parseScores respB).isEmpty
      · rfl
      · exact absurd (List.isEmpty_iff.mp hpe) hb
    simp only [evaluate_story_importance, if_neg hnle, hne, Bool.false_eq_true,
      if_false]
  · have hA : parseScores respA = [] := parseScores_no_colon respA ha
    have hall : (annotateSimpleIds news_items).all (fun x => x.pub_date.isSome) = true := by
      rw [annotateSimpleIds, annotateFrom_pub_dates]
      exact hpd
    simp only [evaluate_story_importance, if_neg hnle, hA, List.isEmpty_nil,
      if_true, hall]

/-- Witness for C3 (amended), at `items8` with the shape (b) response `"1:8"`
and the colon-free shape (a) response `"1,2,3,4,5,6,7"`. -/
theorem evaluate_response_shapes_witness :
    (targetStories items8.length defaultPercentage 7 14 < (items8.length : ℤ)
      ∧ parseScores "1:8" ≠ []
      ∧ ':' ∉ "1,2,3,4,5,6,7".data
      ∧ items8.all (fun x => x.pub_date.isSome) = true)
    ∧ ((evaluate_story_importance items8 "X" (Except.ok "1:8") defaultPercentage
          7 14).2 =
        Except.ok (pySliceTo
          (pySortRev (scoreGt (parseScores "1:8")) (annotateSimpleIds items8))
          (targetStories items8.length defaultPercentage 7 14))
      ∧ (evaluate_story_importance items8 "X" (Except.ok "1,2,3,4,5,6,7")
          defaultPercentage 7 14).2 =
        Except.ok (pySliceTo (pySortRev pubDateGt (annotateSimpleIds items8))
          (targetStories items8.length defaultPercentage 7 14))) :=
  ⟨⟨by decide, by decide, by decide, by decide⟩,
    evaluate_response_shapes items8 "X" "1,2,3,4,5,6,7" "1:8" defaultPercentage 7 14
      (by decide) (by decide) (by decide) (by decide)⟩

/-! ## Claim C8 -/

/-- C8. —  For a category of 20 items where the oracle response contains a
valid `ordinal:score` line (scores 1–10) for every item, the ranker returns
exactly `clamp(round(20*0.25), 7, 14) = 7` items: the first 7 of the full sort
by score descending with publication date descending as tie-break (and that
prefix is indeed sorted under the score/date ordering). -/
theorem evaluate_twenty_items_top_seven (news_items : List NewsItem)
    (category : String) (resp : String)
    (h20 : news_items.length = 20)
    (hval : ∀ i : ℕ, i < 20 → 1 ≤ dictGet (parseScores resp) (toString (i + 1)) 0) :
    targetStories news_items.length defaultPercentage 7 14 = 7
    ∧ (evaluate_story_importance news_items category (Except.ok resp)
        defaultPercentage 7 14).2 =
      Except.ok (pySliceTo
        (pySortRev (scoreGt (parseScores resp)) (annotateSimpleIds news_items)) 7)
    ∧ (pySliceTo (pySortRev (scoreGt (parseScores resp))
        (annotateSimpleIds news_items)) 7).length = 7
    ∧ (pySliceTo (pySortRev (scoreGt (parseScores resp))
        (annotateSimpleIds news_items)) 7).Pairwise
        (fun a b => scoreGt (parseScores resp) b a = false) := by
  have htar : targetStories news_items.length defaultPercentage 7 14 = 7 := by
    rw [h20]
    decide
  have hne : parseScores resp ≠ [] := by
    intro hnil
    have h0 := hval 0 (by norm_num)
    rw [hnil] at h0
    simp only [dictGet] at h0
    omega
  have hemp : (parseScores resp).isEmpty = false := by
    cases hpe : (parseScores resp).isEmpty
    · rfl
    · exact absurd (List.isEmpty_iff.mp hpe) hne
  have hnle : ¬((news_items.length : ℤ) ≤
      targetStories news_items.length defaultPercentage 7 14) := by
    rw [htar, h20]
    norm_num
  have htake : pySliceTo (pySortRev (scoreGt (parseScores resp))
      (annotateSimpleIds news_items)) 7 =
      (pySortRev (scoreGt (parseScores resp)) (annotateSimpleIds news_items)).take 7 := by
    rw [pySliceTo, if_pos (by norm_num)]
    rfl
  have hnle7 : ¬((news_items.length : ℤ) ≤ (7 : ℤ)) := by
    rw [h20]
    norm_num
  refine ⟨htar, ?_, ?_, ?_⟩
  · simp only [evaluate_story_importance, htar, if_neg hnle7, hemp,
      Bool.false_eq_true, if_false]
  · rw [htake, List.length_take, pySortRev_length, annotateSimpleIds,
      annotateFrom_length, h20]
    omega
  · rw [htake]
    exact List.Pairwise.sublist (List.take_sublist _ _)
      (pySortRev_pairwise _ (scoreGt_asymm _) (scoreGt_negtrans _) _)

/-- A concrete 20-item category input. -/
def item20 (i : ℕ) : NewsItem :=
  { title := "n" ++ toString i, description := "d", category := some "X",
    pub_date := some ("2024-02-" ++ toString i), ai_summary := none,
    simple_id := none }

def items20 : List NewsItem := (List.range 20).map (fun i => item20 (i + 1))

/-- An oracle response scoring all 20 ordinals. -/
def resp20 : String :=
  "1:5\n2:5\n3:5\n4:5\n5:5\n6:5\n7:5\n8:5\n9:5\n10:5\n11:5\n12:5\n13:5\n14:5\n15:5\n16:5\n17:5\n18:5\n19:5\n20:5"

/-- Witness for C8 at a concrete 20-item category with all-valid scores. -/
theorem evaluate_twenty_items_top_seven_witness :
    (items20.length = 20
      ∧ ∀ i : ℕ, i < 20 → 1 ≤ dictGet (parseScores resp20) (toString (i + 1)) 0)
    ∧ (targetStories items20.length defaultPercentage 7 14 = 7
      ∧ (evaluate_story_importance items20 "X" (Except.ok resp20)
          defaultPercentage 7 14).2 =
        Except.ok (pySliceTo
          (pySortRev (scoreGt (parseScores resp20)) (annotateSimpleIds items20)) 7)
      ∧ (pySliceTo (pySortRev (scoreGt (parseScores resp20))
          (annotateSimpleIds items20)) 7).length = 7
      ∧ (pySliceTo (pySortRev (scoreGt (parseScores resp20))
          (annotateSimpleIds items20)) 7).Pairwise
          (fun a b => scoreGt (parseScores resp20) b a = false)) :=
  ⟨⟨by decide, by decide⟩,
    evaluate_twenty_items_top_seven items20 "X" resp20 (by decide) (by decide)⟩

/-! ## Claim C7 -/

/-- C7. —  Deduplication (with semantic similarity disabled) is idempotent:
applied to its own output it returns that output unchanged in membership and
order.  Moreover no two kept items, in kept order, have case-insensitive
title-similarity ratio above the 0.8 threshold, and the richness sort is
stable: for every richness value, the items carrying it appear in the sorted
list exactly in their original order. -/
theorem deduplicate_idempotent (items : List NewsItem) :
    deduplicate_news_items (deduplicate_news_items items) =
      deduplicate_news_items items
    ∧ (deduplicate_news_items items).Pairwise
        (fun a b => similar_titles a.title b.title = false)
    ∧ ∀ c : ℕ,
        (pySortRev richGt items).filter (fun x => decide (richness x = c)) =
          items.filter (fun x => decide (richness x = c)) := by
  refine ⟨?_, dedupPass_pairwise _, ?_⟩
  · unfold deduplicate_news_items
    have hsorted : (pySortRev richGt items).Pairwise
        (fun a b => richGt b a = false) :=
      pySortRev_pairwise _ richGt_asymm richGt_negtrans _
    have hd : (dedupPass (pySortRev richGt items)).Pairwise
        (fun a b => richGt b a = false) :=
      List.Pairwise.sublist (dedupPass_sublist _) hsorted
    rw [pySortRev_eq_self _ _ hd, dedupPass_idem]
  · intro c
    apply pySortRev_filter
    intro a b ha hb
    simp only [decide_eq_true_eq] at ha hb
    simp only [richGt, decide_eq_false_iff_not]
    omega

/-! ## Claim C6 -/

/-- The ids of a batch, in batch order. -/
def batchIds (l : List RssNewsItem) : List (Option String) := l.map (fun it => it.id)

theorem add_new_items_ids_superset (news : List RssNewsItem) :
    ∀ (data : List RssNewsItem) (ids : List (Option String)),
      ∀ x ∈ ids, x ∈ (add_new_items news data ids).2.1 := by
  induction news with
  | nil => intro data ids x hx; exact hx
  | cons it rest ih =>
    intro data ids x hx
    simp only [add_new_items]
    by_cases hmem : it.id ∈ ids
    · rw [if_pos hmem]
      exact ih _ _ x hx
    · rw [if_neg hmem]
      exact ih _ _ x (List.mem_cons_of_mem _ hx)

theorem add_new_items_mem_ids (news : List RssNewsItem) :
    ∀ (data : List RssNewsItem) (ids : List (Option String)),
      ∀ n ∈ news, n.id ∈ (add_new_items news data ids).2.1 := by
  induction news with
  | nil => intro data ids n hn; cases hn
  | cons it rest ih =>
    intro data ids n hn
    simp only [add_new_items]
    by_cases hmem : it.id ∈ ids
    · rw [if_pos hmem]
      rcases List.mem_cons.mp hn with rfl | hn
      · exact add_new_items_ids_superset rest data ids _ hmem
      · exact ih _ _ n hn
    · rw [if_neg hmem]
      rcases List.mem_cons.mp hn with rfl | hn
      · exact add_new_items_ids_superset rest _ _ _ (List.mem_cons_self _ _)
      · exact ih _ _ n hn

theorem add_new_items_noop (news : List RssNewsItem) (data : List RssNewsItem)
    (ids : List (Option String)) (h : ∀ n ∈ news, n.id ∈ ids) :
    add_new_items news data ids = (data, ids, 0) := by
  induction news with
  | nil => rfl
  | cons it rest ih =>
    simp only [add_new_items, if_pos (h it (List.mem_cons_self _ _))]
    exact ih (fun n hn => h n (List.mem_cons_of_mem _ hn))

theorem add_new_items_append (news : List RssNewsItem) :
    ∀ (data : List RssNewsItem) (ids : List (Option String)),
      (add_new_items news data ids).1 = data ++ (add_new_items news [] ids).1 := by
  induction news with
  | nil => intro data ids; simp [add_new_items]
  | cons it rest ih =>
    intro data ids
    simp only [add_new_items]
    by_cases hmem : it.id ∈ ids
    · rw [if_pos hmem, if_pos hmem]
      exact ih data ids
    · rw [if_neg hmem, if_neg hmem]
      show (add_new_items rest (data ++ [it]) _).1 = data ++ (add_new_items rest ([] ++ [it]) _).1
      rw [ih (data ++ [it]), ih ([] ++ [it])]
      simp

theorem add_new_items_new_sublist (news : List RssNewsItem) :
    ∀ ids : List (Option String), (add_new_items news [] ids).1.Sublist news := by
  induction news with
  | nil => intro ids; exact List.Sublist.refl _
  | cons it rest ih =>
    intro ids
    simp only [add_new_items]
    by_cases hmem : it.id ∈ ids
    · rw [if_pos hmem]
      exact (ih ids).trans (List.sublist_cons_self _ _)
    · rw [if_neg hmem]
      show (add_new_items rest [it] _).1.Sublist (it :: rest)
      have : ([it] : List RssNewsItem) = [] ++ [it] := rfl
      rw [this, add_new_items_append rest ([] ++ [it])]
      exact List.Sublist.cons₂ it (ih _)

theorem add_new_items_nodup (news : List RssNewsItem) :
    ∀ (data : List RssNewsItem) (ids : List (Option String)),
      (∀ i ∈ batchIds data, i ∈ ids) → (batchIds data).Nodup →
      (batchIds (add_new_items news data ids).1).Nodup := by
  induction news with
  | nil => intro data ids _ hnd; exact hnd
  | cons it rest ih =>
    intro data ids hsub hnd
    simp only [add_new_items]
    by_cases hmem : it.id ∈ ids
    · rw [if_pos hmem]
      exact ih data ids hsub hnd
    · rw [if_neg hmem]
      apply ih (data ++ [it]) (it.id :: ids)
      · intro i hi
        rw [batchIds, List.map_append] at hi
        rcases List.mem_append.mp hi with hi | hi
        · exact List.mem_cons_of_mem _ (hsub i hi)
        · rcases List.mem_singleton.mp hi with rfl
          exact List.mem_cons_self _ _
      · rw [batchIds, List.map_append]
        rw [List.nodup_append]
        refine ⟨hnd, List.nodup_singleton _, ?_⟩
        intro i hi hi'
        rcases List.mem_singleton.mp hi' with rfl
        exact hmem (hsub _ hi)

/-- C6. —  Merging is idempotent: applying `add_new_items` with the same
item list twice yields the same batch and id set as applying it once, the
second application adds 0 items, no id appears twice in the merged batch
(given the store invariant that the id set covers a duplicate-free batch), new
items are appended after the existing ones retaining their relative order (the
appended part is a sublist of the incoming list), and the existing items are
neither removed nor reordered (they are the unchanged prefix). -/
theorem add_new_items_idempotent (news data : List RssNewsItem)
    (ids : List (Option String))
    (hsub : ∀ i ∈ batchIds data, i ∈ ids) (hnd : (batchIds data).Nodup) :
    (add_new_items news (add_new_items news data ids).1
        (add_new_items news data ids).2.1).1 = (add_new_items news data ids).1
    ∧ (add_new_items news (add_new_items news data ids).1
        (add_new_items news data ids).2.1).2.1 = (add_new_items news data ids).2.1
    ∧ (add_new_items news (add_new_items news data ids).1
        (add_new_items news data ids).2.1).2.2 = 0
    ∧ (batchIds (add_new_items news data ids).1).Nodup
    ∧ (add_new_items news data ids).1.take data.length = data
    ∧ ((add_new_items news data ids).1.drop data.length).Sublist news := by
  have hnoop := add_new_items_noop news (add_new_items news data ids).1
    (add_new_items news data ids).2.1 (add_new_items_mem_ids news data ids)
  refine ⟨by rw [hnoop], by rw [hnoop], by rw [hnoop],
    add_new_items_nodup news data ids hsub hnd, ?_, ?_⟩
  · rw [add_new_items_append news data ids]
    exact List.take_left _ _
  · rw [add_new_items_append news data ids, List.drop_left]
    exact add_new_items_new_sublist news ids

/-- A concrete scraped item with id `n`. -/
def rssIt (n : ℕ) : RssNewsItem :=
  { id := some (toString n), title := "T" ++ toString n, description := "D",
    category := "C", pub_date := 0, url := "u" }

/-- Witness for C6: a batch holding item 1 with a consistent id set, merged
with an ingested list that repeats an id. -/
theorem add_new_items_idempotent_witness :
    ((∀ i ∈ batchIds [rssIt 1], i ∈ [some "1"]) ∧ (batchIds [rssIt 1]).Nodup)
    ∧ ((add_new_items [rssIt 2, rssIt 3, rssIt 2]
          (add_new_items [rssIt 2, rssIt 3, rssIt 2] [rssIt 1] [some "1"]).1
          (add_new_items [rssIt 2, rssIt 3, rssIt 2] [rssIt 1] [some "1"]).2.1).1 =
        (add_new_items [rssIt 2, rssIt 3, rssIt 2] [rssIt 1] [some "1"]).1
      ∧ (add_new_items [rssIt 2, rssIt 3, rssIt 2]
          (add_new_items [rssIt 2, rssIt 3, rssIt 2] [rssIt 1] [some "1"]).1
          (add_new_items [rssIt 2, rssIt 3, rssIt 2] [rssIt 1] [some "1"]).2.1).2.1 =
        (add_new_items [rssIt 2, rssIt 3, rssIt 2] [rssIt 1] [some "1"]).2.1
      ∧ (add_new_items [rssIt 2, rssIt 3, rssIt 2]
          (add_new_items [rssIt 2, rssIt 3, rssIt 2] [rssIt 1] [some "1"]).1
          (add_new_items [rssIt 2, rssIt 3, rssIt 2] [rssIt 1] [some "1"]).2.1).2.2 = 0
      ∧ (batchIds (add_new_items [rssIt 2, rssIt 3, rssIt 2] [rssIt 1] [some "1"]).1).Nodup
      ∧ (add_new_items [rssIt 2, rssIt 3, rssIt 2] [rssIt 1]
          [some "1"]).1.take [rssIt 1].length = [rssIt 1]
      ∧ ((add_new_items [rssIt 2, rssIt 3, rssIt 2] [rssIt 1]
          [some "1"]).1.drop [rssIt 1].length).Sublist [rssIt 2, rssIt 3, rssIt 2]) :=
  ⟨⟨by decide, by decide⟩,
    add_new_items_idempotent [rssIt 2, rssIt 3, rssIt 2] [rssIt 1] [some "1"]
      (by decide) (by decide)⟩

/-! ## Claim C9 -/

theorem scrapeAttempts_all_fail (fetch : ℕ → Except Unit String)
    (parse : String → Except Unit (List RssNewsItem)) (retries : ℕ) (delay : ℤ) :
    ∀ (n s : ℕ), (∀ a, s ≤ a → a < s + n → fetch a = .error ()) → s + n = retries →
      scrapeAttempts fetch parse retries delay (List.range' s n) =
        .ok ([], n, List.replicate (n - 1) delay) := by
  intro n
  induction n with
  | zero => intro s _ _; rfl
  | succ n ih =>
    intro s hfail hsum
    rw [List.range'_succ]
    simp only [scrapeAttempts, hfail s (le_refl s) (by omega)]
    rw [ih (s + 1) (fun a ha1 ha2 => hfail a (by omega) (by omega)) (by omega)]
    simp only [Except.map]
    cases n with
    | zero =>
      have hlast : ¬((s : ℤ) < (retries : ℤ) - 1) := by omega
      rw [if_neg hlast]
      rfl
    | succ m =>
      have hmid : (s : ℤ) < (retries : ℤ) - 1 := by omega
      rw [if_pos hmid]
      rfl

/-- C9. —  If every fetch attempt fails with a request error,
`scrape_rss_feed` makes exactly the configured `retries` attempts, performs
the fixed `delay` between consecutive attempts (`retries - 1` sleeps), and
returns an empty list rather than raising — so one feed's failure cannot
abort the run. -/
theorem scrape_all_attempts_fail (fetch : ℕ → Except Unit String)
    (parse : String → Except Unit (List RssNewsItem)) (retries : ℕ) (delay : ℤ)
    (hfail : ∀ a, a < retries → fetch a = .error ()) :
    scrape_rss_feed fetch parse retries delay =
      .ok ([], retries, List.replicate (retries - 1) delay) := by
  rw [scrape_rss_feed, List.range_eq_range']
  exact scrapeAttempts_all_fail fetch parse retries delay retries 0
    (fun a _ h2 => hfail a (by omega)) (by omega)

/-- Witness for C9: three attempts, all failing, with delay 2. -/
theorem scrape_all_attempts_fail_witness :
    (∀ a : ℕ, a < 3 → (fun _ : ℕ => (Except.error () : Except Unit String)) a =
      Except.error ())
    ∧ scrape_rss_feed (fun _ => Except.error ()) (fun _ => Except.ok []) 3 2 =
      Except.ok ([], 3, List.replicate (3 - 1) 2) :=
  ⟨fun _ _ => rfl,
    scrape_all_attempts_fail (fun _ => Except.error ()) (fun _ => Except.ok [])
      3 2 (fun _ _ => rfl)⟩

/-! ## Claim C5 -/

/-- An item whose mandatory texts are present: title and description have
text, and whichever of guid, pubDate, link exists also has text.  (Outside
this set `parse_rss_item` raises `AttributeError`.) -/
def wellFormedXml (x : XmlItem) : Prop :=
  x.title ≠ none ∧ x.description ≠ none ∧ x.guid ≠ some none
    ∧ x.pubDate ≠ some none ∧ x.link ≠ some none

instance (x : XmlItem) : Decidable (wellFormedXml x) := by
  unfold wellFormedXml
  infer_instance

/-- The claim's "no resolvable URL": no `<link>` element, and no guid whose
stripped text is a non-empty absolute (`http…`) URL. -/
def noResolvableUrl (x : XmlItem) : Prop :=
  x.link = none ∧ ∀ g, x.guid = some (some g) →
    ¬(String.mk (pyStrip g.data) ≠ "" ∧ "http".data.isPrefixOf (pyStrip g.data))

/-- The claim's "unparsable or missing publication timestamp". -/
def unOrMissingDate (x : XmlItem) (dateParse : String → Option ℤ) : Prop :=
  x.pubDate = none
    ∨ ∃ s, x.pubDate = some (some s) ∧ dateParse (String.mk (pyStrip s.data)) = none

theorem parse_rss_item_skips (x : XmlItem) (category : String)
    (dateParse : String → Option ℤ) (hwf : wellFormedXml x)
    (hskip : noResolvableUrl x ∨ unOrMissingDate x dateParse) :
    parse_rss_item x category dateParse = .ok none := by
  obtain ⟨xt, xd, xg, xp, xl⟩ := x
  obtain ⟨hT, hD, hG, hP, hL⟩ := hwf
  rcases xt with _ | t
  · exact absurd rfl hT
  rcases xd with _ | d
  · exact absurd rfl hD
  rcases xg with _ | og
  · -- no guid element
    rcases xp with _ | op
    · -- no pubDate element
      rcases xl with _ | ol
      · rfl
      · rcases ol with _ | u
        · exact absurd rfl hL
        · rfl
    · rcases op with _ | p
      · exact absurd rfl hP
      · rcases xl with _ | ol
        · rfl
        · rcases ol with _ | u
          · exact absurd rfl hL
          · -- link present, date must be unparsable
            rcases hskip with ⟨hlnone, _⟩ | hdate
            · exact absurd hlnone (by simp)
            · rcases hdate with hnone | ⟨s, hs, hdp⟩
              · exact absurd hnone (by simp)
              · have hsp : p = s := by
                  injection hs with h1
                  injection h1
                subst hsp
                simp only [parse_rss_item, optText, resolveUrl, hdp]
  · rcases og with _ | g
    · exact absurd rfl hG
    · -- guid with text g
      rcases xp with _ | op
      · -- no pubDate element: item is skipped whatever the url resolution says
        rcases xl with _ | ol
        · by_cases hc : (String.mk (pyStrip g.data) ≠ ""
              ∧ "http".data.isPrefixOf (String.mk (pyStrip g.data)).data)
          · simp only [parse_rss_item, optText, resolveUrl, if_pos hc]
          · simp only [parse_rss_item, optText, resolveUrl, if_neg hc]
        · rcases ol with _ | u
          · exact absurd rfl hL
          · rfl
      · rcases op with _ | p
        · exact absurd rfl hP
        · rcases xl with _ | ol
          · -- no link: either the guid is no URL, or the date fails
            rcases hskip with ⟨_, hguid⟩ | hdate
            · simp only [parse_rss_item, optText, resolveUrl, if_neg (hguid g rfl)]
            · rcases hdate with hnone | ⟨s, hs, hdp⟩
              · exact absurd hnone (by simp)
              · have hsp : p = s := by
                  injection hs with h1
                  injection h1
                subst hsp
                by_cases hc : (String.mk (pyStrip g.data) ≠ ""
                    ∧ "http".data.isPrefixOf (String.mk (pyStrip g.data)).data)
                · simp only [parse_rss_item, optText, resolveUrl, if_pos hc, hdp]
                · simp only [parse_rss_item, optText, resolveUrl, if_neg hc]
          · rcases ol with _ | u
            · exact absurd rfl hL
            · -- link present, date must be unparsable
              rcases hskip with ⟨hlnone, _⟩ | hdate
              · exact absurd hlnone (by simp)
              · rcases hdate with hnone | ⟨s, hs, hdp⟩
                · exact absurd hnone (by simp)
                · have hsp : p = s := by
                    injection hs with h1
                    injection h1
                  subst hsp
                  simp only [parse_rss_item, optText, resolveUrl, hdp]

theorem parse_rss_item_isOk (x : XmlItem) (category : String)
    (dateParse : String → Option ℤ) (hwf : wellFormedXml x) :
    (parse_rss_item x category dateParse).isOk = true := by
  obtain ⟨xt, xd, xg, xp, xl⟩ := x
  obtain ⟨hT, hD, hG, hP, hL⟩ := hwf
  rcases xt with _ | t
  · exact absurd rfl hT
  rcases xd with _ | d
  · exact absurd rfl hD
  rcases xg with _ | og
  · rcases xp with _ | op
    · rcases xl with _ | ol
      · rfl
      · rcases ol with _ | u
        · exact absurd rfl hL
        · rfl
    · rcases op with _ | p
      · exact absurd rfl hP
      · rcases xl with _ | ol
        · rfl
        · rcases ol with _ | u
          · exact absurd rfl hL
          · simp only [parse_rss_item, optText, resolveUrl]
            cases dateParse (String.mk (pyStrip p.data)) <;> rfl
  · rcases og with _ | g
    · exact absurd rfl hG
    · rcases xp with _ | op
      · rcases xl with _ | ol
        · by_cases hc : (String.mk (pyStrip g.data) ≠ ""
              ∧ "http".data.isPrefixOf (String.mk (pyStrip g.data)).data)
          · simp only [parse_rss_item, optText, resolveUrl, if_pos hc]
            rfl
          · simp only [parse_rss_item, optText, resolveUrl, if_neg hc]
            rfl
        · rcases ol with _ | u
          · exact absurd rfl hL
          · rfl
      · rcases op with _ | p
        · exact absurd rfl hP
        · rcases xl with _ | ol
          · by_cases hc : (String.mk (pyStrip g.data) ≠ ""
                ∧ "http".data.isPrefixOf (String.mk (pyStrip g.data)).data)
            · simp only [parse_rss_item, optText, resolveUrl, if_pos hc]
              cases dateParse (String.mk (pyStrip p.data)) <;> rfl
            · simp only [parse_rss_item, optText, resolveUrl, if_neg hc]
              rfl
          · rcases ol with _ | u
            · exact absurd rfl hL
            · simp only [parse_rss_item, optText, resolveUrl]
              cases dateParse (String.mk (pyStrip p.data)) <;> rfl

theorem parse_rss_feed_isOk (feed : List XmlItem) (category : String)
    (start_of_week end_of_week : ℤ) (dateParse : String → Option ℤ)
    (hwf : ∀ x ∈ feed, wellFormedXml x) :
    (parse_rss_feed feed category start_of_week end_of_week dateParse).isOk = true := by
  induction feed with
  | nil => rfl
  | cons x rest ih =>
    have hx := parse_rss_item_isOk x category dateParse (hwf x (List.mem_cons_self _ _))
    have htail := ih (fun y hy => hwf y (List.mem_cons_of_mem _ hy))
    cases hpi : parse_rss_item x category dateParse with
    | error e =>
      rw [hpi] at hx
      exact absurd hx (by simp [Except.isOk, Except.toBool])
    | ok r =>
      cases htl : parse_rss_feed rest category start_of_week end_of_week dateParse with
      | error e =>
        rw [htl] at htail
        exact absurd htail (by simp [Except.isOk, Except.toBool])
      | ok tl =>
        simp only [parse_rss_feed, hpi, htl]
        cases r with
        | none => rfl
        | some it =>
          show (if start_of_week ≤ it.pub_date ∧ it.pub_date < end_of_week then
              Except.ok (it :: tl) else Except.ok tl).isOk = true
          split <;> rfl

/-- C5 (amended). —  Provided each feed item's mandatory texts are present
(title and description have text, and no present guid/pubDate/link element
lacks text), an item with an unparsable or missing publication timestamp, or
with no resolvable URL (no `<link>` element and no guid that is itself an
absolute URL), is silently excluded, and `parse_rss_feed` never fails for the
whole feed.  Without that proviso the guarantee is false: an item lacking a
`<title>` raises and aborts the whole feed (see the counterexample). -/
theorem parse_rss_feed_tolerates_bad_items (feed : List XmlItem) (category : String)
    (start_of_week end_of_week : ℤ) (dateParse : String → Option ℤ)
    (hwf : ∀ x ∈ feed, wellFormedXml x) :
    (parse_rss_feed feed category start_of_week end_of_week dateParse).isOk = true
    ∧ ∀ x ∈ feed, (noResolvableUrl x ∨ unOrMissingDate x dateParse) →
        parse_rss_item x category dateParse = .ok none :=
  ⟨parse_rss_feed_isOk feed category start_of_week end_of_week dateParse hwf,
    fun x hx hskip => parse_rss_item_skips x category dateParse (hwf x hx) hskip⟩

/-- A fully well-formed feed item (parses, in window, when the date reads
`"good"`). -/
def goodXml : XmlItem :=
  { title := some "T", description := some "D", guid := some (some "1"),
    pubDate := some (some "good"), link := some (some "http://u") }

/-- A malformed feed item: no `<title>` (and its timestamp is unparsable). -/
def badXml : XmlItem :=
  { title := none, description := some "D", guid := some (some "2"),
    pubDate := some (some "nope"), link := some (some "http://v") }

/-- The date oracle for the counterexample: only `"good"` parses. -/
def cexDateParse : String → Option ℤ := fun s => if s = "good" then some 5 else none

/-- C5 counterexample. —  A single malformed item aborts the whole feed: the
well-formed item alone parses, but adding one item lacking a `<title>` (whose
timestamp is also unparsable — by the claim it would be silently excluded)
makes `parse_rss_feed` fail for the whole feed instead. -/
theorem C5_counterexample :
    parse_rss_feed [goodXml] "c" 0 10 cexDateParse =
      .ok [{ id := some "1", title := "T", description := "D", category := "c",
             pub_date := 5, url := "http://u" }]
    ∧ parse_rss_feed [goodXml, badXml] "c" 0 10 cexDateParse = .error () :=
  ⟨by decide, by decide⟩

/-- A well-formed item with no resolvable URL (no link, non-URL guid). -/
def noUrlXml : XmlItem :=
  { title := some "T2", description := some "D2", guid := some (some "42"),
    pubDate := some (some "good"), link := none }

/-- A well-formed item whose timestamp does not parse. -/
def badDateXml : XmlItem :=
  { title := some "T3", description := some "D3", guid := some (some "3"),
    pubDate := some (some "nope"), link := some (some "http://w") }

/-- Witness for C5 (amended): a feed of one good, one URL-less and one
date-broken item is well-formed, so the theorem applies to it. -/
theorem parse_rss_feed_tolerates_bad_items_witness :
    (∀ x ∈ [goodXml, noUrlXml, badDateXml], wellFormedXml x)
    ∧ ((parse_rss_feed [goodXml, noUrlXml, badDateXml] "c" 0 10 cexDateParse).isOk = true
      ∧ ∀ x ∈ [goodXml, noUrlXml, badDateXml],
          (noResolvableUrl x ∨ unOrMissingDate x cexDateParse) →
          parse_rss_item x "c" cexDateParse = .ok none) :=
  ⟨by decide,
    parse_rss_feed_tolerates_bad_items [goodXml, noUrlXml, badDateXml] "c" 0 10
      cexDateParse (by decide)⟩

/-! ## Claim C4 -/

/-- A category entry processes successfully: its ranking call returns a list
and its summarization oracle call succeeds on it. -/
def catOk (rankOracle : String → List NewsItem → Except Unit String)
    (sumOracle : List NewsItem → Except Unit String)
    (p : String × List NewsItem) : Prop :=
  ∃ top s,
    (evaluate_story_importance p.2 p.1 (rankOracle p.1 p.2)
      defaultPercentage 7 14).2 = Except.ok top
    ∧ sumOracle top = Except.ok s

/-- C4 (amended). —  When the summarization oracle fails for one category,
the exception propagates to `generate_summaries_by_category`'s single
`try`/`except` around the whole loop: processing stops there, the categories
processed before the failure keep their summaries (one entry per processed
category), and neither the failing category nor any category after it is
processed or recorded — the run itself does not crash. -/
theorem summaries_stop_at_first_failure
    (rankOracle : String → List NewsItem → Except Unit String)
    (sumOracle : List NewsItem → Except Unit String)
    (pre : List (String × List NewsItem)) (c : String) (its : List NewsItem)
    (post : List (String × List NewsItem)) (top : List NewsItem)
    (hpre : ∀ p ∈ pre, catOk rankOracle sumOracle p)
    (htop : (evaluate_story_importance its c (rankOracle c its)
        defaultPercentage 7 14).2 = Except.ok top)
    (hfail : sumOracle top = Except.error ()) :
    summariesLoop rankOracle sumOracle (pre ++ (c, its) :: post) =
      summariesLoop rankOracle sumOracle pre
    ∧ (summariesLoop rankOracle sumOracle pre).map Prod.fst = pre.map Prod.fst := by
  induction pre with
  | nil =>
    refine ⟨?_, rfl⟩
    simp only [List.nil_append, summariesLoop, htop, generate_summary, hfail]
  | cons p pre' ih =>
    obtain ⟨top', s', h1, h2⟩ := hpre p (List.mem_cons_self _ _)
    have ih' := ih (fun q hq => hpre q (List.mem_cons_of_mem _ hq))
    obtain ⟨pc, pits⟩ := p
    simp only [List.cons_append, summariesLoop, h1, generate_summary, h2,
      List.map_cons]
    have happ : pre'.append ((c, its) :: post) = pre' ++ (c, its) :: post := rfl
    exact ⟨by rw [happ, ih'.1], by rw [ih'.2]⟩

/-- Concrete items in two categories. -/
def catAItem : NewsItem :=
  { title := "a", description := "da", category := some "A",
    pub_date := some "2024-01-01", ai_summary := none, simple_id := none }

def catBItem : NewsItem :=
  { title := "b", description := "db", category := some "B",
    pub_date := some "2024-01-02", ai_summary := none, simple_id := none }

/-- A ranking oracle (never consulted below the threshold). -/
def cexRankOracle : String → List NewsItem → Except Unit String :=
  fun _ _ => Except.ok ""

/-- A summarization oracle that fails exactly on category "A" item lists. -/
def cexSumOracle : List NewsItem → Except Unit String := fun l =>
  if l.any (fun it => it.category = some "A") then Except.error ()
  else Except.ok "SB"

/-- C4 counterexample. —  With categories A then B, where only A's
summarization call fails, the returned map is empty: category B's oracle call
would succeed, yet B is not in the map (the loop aborted), and A is not
recorded as missing either — contradicting "records that category's summary as
missing and still processes every remaining category". -/
theorem C4_counterexample :
    generate_summaries_by_category [catAItem, catBItem] cexRankOracle cexSumOracle = []
    ∧ cexSumOracle (annotateSimpleIds [catBItem]) = Except.ok "SB" :=
  ⟨by decide, by decide⟩

/-- Witness for C4 (amended): category "P" succeeds, then "A" fails, with a
category "Q" pending after it. -/
theorem summaries_stop_at_first_failure_witness :
    ((∀ p ∈ [("P", [catBItem])], catOk cexRankOracle cexSumOracle p)
      ∧ (evaluate_story_importance [catAItem] "A" (cexRankOracle "A" [catAItem])
          defaultPercentage 7 14).2 = Except.ok (annotateSimpleIds [catAItem])
      ∧ cexSumOracle (annotateSimpleIds [catAItem]) = Except.error ())
    ∧ (summariesLoop cexRankOracle cexSumOracle
        ([("P", [catBItem])] ++ ("A", [catAItem]) :: [("Q", [catAItem])]) =
          summariesLoop cexRankOracle cexSumOracle [("P", [catBItem])]
      ∧ (summariesLoop cexRankOracle cexSumOracle [("P", [catBItem])]).map Prod.fst =
          [("P", [catBItem])].map Prod.fst) :=
  ⟨⟨fun p hp => by
      rcases List.mem_singleton.mp hp with rfl
      exact ⟨annotateSimpleIds [catBItem], "SB", by decide, by decide⟩,
    by decide, by decide⟩,
    summaries_stop_at_first_failure cexRankOracle cexSumOracle
      [("P", [catBItem])] "A" [catAItem] [("Q", [catAItem])]
      (annotateSimpleIds [catAItem])
      (fun p hp => by
        rcases List.mem_singleton.mp hp with rfl
        exact ⟨annotateSimpleIds [catBItem], "SB", by decide, by decide⟩)
      (by decide) (by decide)⟩

end NewsDigest
